import Mathlib

/-!
Verification of the projection compiler of the Qwiery SQL adapter.

The development embeds two source components:

* `src/projections.ts` — the constraint-tree renderer `toSQL` (with its helpers
  `getSqlOperator` and `getOperand`), which walks the operator tree produced by
  the external projection parser and emits a boolean-expression string.
* `src/sequelize.ts` — the relational-query translator `toSequelize` (with its
  helpers `getSequelizeOperator` and `rewrite`), which walks the raw
  Mongo-like filter object and emits a Sequelize `where` descriptor.

JavaScript values are modelled by the inductive `JVal`; JavaScript runtime
errors (thrown `Error`s and `TypeError`s) are modelled by `Except`.
-/

/-- The single-quote character, used by the string renderer when quoting
string literals. -/
def apos : String := String.singleton (Char.ofNat 39)

/-- A JavaScript value as it occurs in raw filter objects and operator-tree
operands: a string, a number (the sources only ever use integral numbers),
a boolean, an array, or a plain object whose entries are listed in the
JavaScript own-key enumeration order. -/
inductive JVal where
  | str (s : String)
  | num (n : Int)
  | bool (b : Bool)
  | arr (elems : List JVal)
  | obj (entries : List (String × JVal))
  deriving Repr

/-- A scalar JavaScript value: a string, number or boolean. -/
def JVal.isScalar : JVal → Bool
  | .str _ => true
  | .num _ => true
  | .bool _ => true
  | _ => false

mutual

/-- JavaScript string coercion of a value as used by the template literals
of the renderer: strings stay as they are, numbers and booleans print
their literal, arrays comma-join their coerced elements and plain objects
print the object tag. -/
def jsStr : JVal → String
  | .str s => s
  | .num n => toString n
  | .bool b => toString b
  | .arr xs => String.intercalate "," (jsStrList xs)
  | .obj _ => "[object Object]"

/-- Element-wise coercion of the members of an array. -/
def jsStrList : List JVal → List String
  | [] => []
  | x :: xs => jsStr x :: jsStrList xs

end

/-- JavaScript string coercion of a possibly-undefined value: `undefined`
interpolates as the string "undefined". -/
def jsStrOpt : Option JVal → String
  | none => "undefined"
  | some v => jsStr v

mutual

/-- `getOperand` of `src/projections.ts`: strings are single-quoted, numbers
and booleans print their literal, the empty array prints as `[]` and a
non-empty array comma-joins its recursively formatted elements (JavaScript
`Array.join` renders an `undefined` element as the empty string). For any
other value the JavaScript function falls off its end and returns
`undefined`, modelled as `none`. -/
def getOperand : JVal → Option String
  | .str s => some (apos ++ s ++ apos)
  | .num n => some (toString n)
  | .bool b => some (toString b)
  | .arr [] => some "[]"
  | .arr (x :: xs) => some (String.intercalate ", " (getOperandList (x :: xs)))
  | .obj _ => none

/-- The element loop of the array branch of `getOperand`: the formatted
elements before joining, an `undefined` one contributing the empty
string. -/
def getOperandList : List JVal → List String
  | [] => []
  | x :: xs => (getOperand x).getD "" :: getOperandList xs

end

/-- The interpolation `${getOperand(q.operand)}`: an `undefined` result (and
an `undefined` operand, for which `getOperand` also returns `undefined`)
renders as the string "undefined". -/
def getOperandS (o : Option JVal) : String :=
  match o with
  | none => "undefined"
  | some v => (getOperand v).getD "undefined"

/-- An error raised by the string renderer: either the `Error` thrown by
`getSqlOperator` for an operator keyword outside its symbol table (the
payload is the offending keyword), or a JavaScript `TypeError` raised when
the renderer touches `q.parts` on a node that has no `parts` field. -/
inductive RenderError where
  | unrecognizedOperator (keyword : String)
  | typeError (msg : String)
  deriving Repr, DecidableEq

/-- The message of a render error; `getSqlOperator` throws
`new Error("Unrecognized operator '<o>'.")`. -/
def RenderError.message : RenderError → String
  | .unrecognizedOperator o => "Unrecognized operator " ++ apos ++ o ++ apos ++ "."
  | .typeError m => m

/-- `getSqlOperator` of `src/projections.ts`: the fixed keyword-to-symbol
table of the string renderer; any other keyword throws. -/
def getSqlOperator (o : String) : Except RenderError String :=
  if o = "$eq" then .ok "="
  else if o = "$lt" then .ok "<"
  else if o = "$lte" then .ok "<="
  else if o = "$gt" then .ok ">"
  else if o = "$gte" then .ok ">="
  else if o = "$in" then .ok "in"
  else if o = "$and" then .ok "and"
  else if o = "$or" then .ok "or"
  else .error (.unrecognizedOperator o)

/-- A node of the operator tree produced by the external projection parser
(spec section 3): an optional operator tag, an optional field name, an
optional operand and an optional list of child parts. `none` models an
absent (`undefined`) property. -/
inductive QNode where
  | mk (operator : Option String) (field : Option String)
       (operand : Option JVal) (parts : Option (List QNode))

/-- JavaScript truthiness of an optional string property, as tested by
`if (q.operator)` and `if (q.field)`: absent and empty strings are falsy. -/
def truthy : Option String → Bool
  | none => false
  | some s => ¬ (s = "")

/-- The message of the `TypeError` raised by `q.parts.length` when `parts`
is absent. -/
def partsLengthMsg : String := "Cannot read properties of undefined (reading length)"

/-- The message of the `TypeError` raised by `for (const part of q.parts)`
when `parts` is absent. -/
def partsIterMsg : String := "q.parts is not iterable"

/-- The predicate branch of `toSQL` (`q.operator` and `q.field` both truthy):
renders `(...)` for the node itself, without the trailing walk over
`q.parts`. `op` is the operator string, `field` the field string (the
source reads `q.field || ''` in the array and fallthrough branches, which
equals `q.field` under truthiness). -/
def renderPredicate (op field : String) (operand : Option JVal) (v : String) :
    Except RenderError String :=
  match operand with
  | some (.arr xs) =>
    if op = "$all" then
      .ok ("(" ++ getOperandS (some (.arr xs)) ++ " in " ++ v ++ "." ++ field ++ ")")
    else
      match getSqlOperator op with
      | .error e => .error e
      | .ok sym =>
        .ok ("(" ++ v ++ "." ++ field ++ " " ++ sym ++ " (" ++ getOperandS (some (.arr xs)) ++ "))")
  | od =>
    if op = "$size" then
      .ok ("(length(" ++ v ++ "." ++ field ++ ") = " ++ getOperandS od ++ ")")
    else if op = "$startsWith" then
      .ok ("(" ++ v ++ "." ++ field ++ " like " ++ apos ++ jsStrOpt od ++ "%" ++ apos ++ ")")
    else if op = "$contains" then
      .ok ("(" ++ v ++ "." ++ field ++ " like " ++ apos ++ "%" ++ jsStrOpt od ++ "%" ++ apos ++ ")")
    else if op = "$regex" then
      .ok ("(" ++ v ++ "." ++ field ++ " regexp " ++ apos ++ jsStrOpt od ++ apos ++ ")")
    else
      match getSqlOperator op with
      | .error e => .error e
      | .ok sym =>
        .ok ("(" ++ v ++ "." ++ field ++ " " ++ sym ++ " " ++ getOperandS od ++ ")")

mutual

/-- `toSQL` of `src/projections.ts`: renders an operator-tree node as a
boolean-expression string scoped to the variable `v`. Mirrors the source:
a truthy operator with a truthy field renders the predicate and then falls
through to the trailing `q.parts` walk; a truthy operator without a field
computes the conjunctor, renders every child with the same variable and
level 0, joins with spaces around the conjunctor and returns immediately;
otherwise only the trailing walk runs, concatenating the children rendered
at `level + 1` with no separator. Touching an absent `parts` raises a
`TypeError`, exactly where the source would (`q.parts.length`, or the
`for`-`of` loop of the connector branch). -/
def toSQL (q : QNode) (v : String) (level : Nat) : Except RenderError String :=
  match q with
  | .mk operator field operand parts =>
    if truthy operator then
      if truthy field then
        match renderPredicate (operator.getD "") (field.getD "") operand v with
        | .error e => .error e
        | .ok s =>
          match parts with
          | none => .error (.typeError partsLengthMsg)
          | some ps =>
            if ps.length > 0 then
              match renderTrailing ps v level with
              | .error e => .error e
              | .ok t => .ok (s ++ t)
            else .ok s
      else
        match getSqlOperator (operator.getD "") with
        | .error e => .error e
        | .ok conjunctor =>
          match parts with
          | none => .error (.typeError partsIterMsg)
          | some ps =>
            match renderParts ps v with
            | .error e => .error e
            | .ok coll => .ok (String.intercalate (" " ++ conjunctor ++ " ") coll)
    else
      match parts with
      | none => .error (.typeError partsLengthMsg)
      | some ps =>
        if ps.length > 0 then
          match renderTrailing ps v level with
          | .error e => .error e
          | .ok t => .ok t
        else .ok ""

/-- The child loop of the connector branch of `toSQL`: each part is rendered
with the same variable and default level 0. -/
def renderParts (ps : List QNode) (v : String) : Except RenderError (List String) :=
  match ps with
  | [] => .ok []
  | p :: rest =>
    match toSQL p v 0 with
    | .error e => .error e
    | .ok s =>
      match renderParts rest v with
      | .error e => .error e
      | .ok r => .ok (s :: r)

/-- The trailing child loop of `toSQL`: each part is rendered at
`level + 1` and the results are concatenated. -/
def renderTrailing (ps : List QNode) (v : String) (level : Nat) : Except RenderError String :=
  match ps with
  | [] => .ok ""
  | p :: rest =>
    match toSQL p v (level + 1) with
    | .error e => .error e
    | .ok s =>
      match renderTrailing rest v level with
      | .error e => .error e
      | .ok r => .ok (s ++ r)

end

/-- A Sequelize operator symbol (`Op.eq`, `Op.lt`, ...) as returned by the
translator's keyword table; `$contains` maps to `Op.substring`. -/
inductive SeqOp where
  | opEq | opLt | opLte | opGt | opGte | opIn | opAnd | opOr | opStartsWith | opSubstring
  deriving Repr, DecidableEq

/-- A key of the rewritten mapping: either a Sequelize operator symbol or a
plain string key (a passthrough field name or a `data.`-namespaced
attribute name). JavaScript's `_.keys` enumerates only the string keys;
`Object.getOwnPropertySymbols` enumerates only the symbol keys. -/
inductive SeqKey where
  | op (o : SeqOp)
  | str (s : String)
  deriving Repr, DecidableEq

/-- Whether a rewritten-mapping key is a string key (visible to `_.keys`). -/
def SeqKey.isStr : SeqKey → Bool
  | .str _ => true
  | .op _ => false

/-- A value of the rewritten mapping produced by the translator's
`rewrite`: scalars pass through, arrays hold element-wise rewritten
mappings, objects hold rewritten entries keyed by `SeqKey`. -/
inductive SeqVal where
  | str (s : String)
  | num (n : Int)
  | bool (b : Bool)
  | arr (elems : List SeqVal)
  | obj (entries : List (SeqKey × SeqVal))
  deriving Repr

/-- The standalone array-length predicate pushed onto `specialCases`:
`Sequelize.where(Sequelize.fn("json_array_length", Sequelize.col("data"),
Sequelize.literal(...)), value)`, where the literal is the JSON path
`"$.<key>"` including its double quotes. -/
structure SizeWhere where
  fn : String
  col : String
  path : String
  operand : JVal
  deriving Repr

/-- `getSequelizeOperator` of `src/sequelize.ts`: the keyword switch of the
translator. Recognized operator keywords map to Sequelize symbols,
`$size` throws (it must have been special-cased before), the passthrough
field names `id` and `labels` map to themselves, and every other key is
namespaced as `data.<key>`. (`$all` and `$regex` have no case and fall to
the default.) -/
def getSequelizeOperator (operator : String) : Except String SeqKey :=
  if operator = "$eq" then .ok (.op .opEq)
  else if operator = "$lt" then .ok (.op .opLt)
  else if operator = "$lte" then .ok (.op .opLte)
  else if operator = "$gt" then .ok (.op .opGt)
  else if operator = "$gte" then .ok (.op .opGte)
  else if operator = "$in" then .ok (.op .opIn)
  else if operator = "$and" then .ok (.op .opAnd)
  else if operator = "$or" then .ok (.op .opOr)
  else if operator = "$startsWith" then .ok (.op .opStartsWith)
  else if operator = "$contains" then .ok (.op .opSubstring)
  else if operator = "$size" then .error "Should have been handled separately already."
  else if operator = "id" ∨ operator = "labels" then .ok (.str operator)
  else .ok (.str ("data." ++ operator))

/-- The look-ahead of `rewrite` over the keys of a nested mapping: the first
key equal to `$size` (the source tests `_.includes(["$size"], k)`), with
its raw value. -/
def lookupSize (kvs : List (String × JVal)) : Option JVal :=
  (kvs.find? (fun e => e.1 = "$size")).map (fun e => e.2)

/-- The standalone predicate built for `$size` under the original
(unrewritten) key. -/
def sizeWhereFor (key : String) (operand : JVal) : SizeWhere :=
  ⟨"json_array_length", "data", "\"$." ++ key ++ "\"", operand⟩

/-- `Object.keys` of a primitive string enumerates its character indices
("0", "1", ...), and indexing yields one-character strings; each such entry
goes through the default branch of `getSequelizeOperator` (an index is
never an operator keyword nor `id`/`labels`) and its one-character value
through the scalar branch of `rewrite`, so rewriting a string yields the
mapping from `data.<i>` to the i-th character. -/
def strCharEntries (s : String) : List (SeqKey × SeqVal) :=
  s.data.enum.map (fun p => (SeqKey.str ("data." ++ toString p.1), SeqVal.str (String.singleton p.2)))

mutual

/-- One iteration of the `for (const key of Object.keys(projector))` loop of
`rewrite`: computes `getSequelizeOperator(key)` first (it can throw), then
dispatches on the value: a plain object is scanned for `$size` (if found,
a standalone predicate is appended to the accumulator and the key is
skipped; otherwise the value is rewritten recursively), an array is
rewritten element-wise, and a scalar is kept as-is. Returns the entries
contributed to `r` and the grown accumulator. -/
def rewriteEntry (key : String) (value : JVal) (acc : List SizeWhere) :
    Except String (List (SeqKey × SeqVal) × List SizeWhere) :=
  match getSequelizeOperator key with
  | .error e => .error e
  | .ok newKey =>
    match value with
    | .obj kvs =>
      match lookupSize kvs with
      | some sizeOperand => .ok ([], acc ++ [sizeWhereFor key sizeOperand])
      | none =>
        match rewriteList kvs acc with
        | .error e => .error e
        | .ok (m, acc1) => .ok ([(newKey, SeqVal.obj m)], acc1)
    | .arr xs =>
      match rewriteElems xs acc with
      | .error e => .error e
      | .ok (vs, acc1) => .ok ([(newKey, SeqVal.arr vs)], acc1)
    | .str s => .ok ([(newKey, SeqVal.str s)], acc)
    | .num n => .ok ([(newKey, SeqVal.num n)], acc)
    | .bool b => .ok ([(newKey, SeqVal.bool b)], acc)

/-- The key loop of `rewrite` over the entries of a plain object, in
enumeration order, threading the `specialCases` accumulator left to
right. -/
def rewriteList (entries : List (String × JVal)) (acc : List SizeWhere) :
    Except String (List (SeqKey × SeqVal) × List SizeWhere) :=
  match entries with
  | [] => .ok ([], acc)
  | (k, val) :: rest =>
    match rewriteEntry k val acc with
    | .error e => .error e
    | .ok (e1, acc1) =>
      match rewriteList rest acc1 with
      | .error e => .error e
      | .ok (r, acc2) => .ok (e1 ++ r, acc2)

/-- The array branch of `rewrite`:
`value.map((u) => rewrite(u, specialCases))`, each element becoming the
mapping produced by rewriting it. -/
def rewriteElems (elems : List JVal) (acc : List SizeWhere) :
    Except String (List SeqVal × List SizeWhere) :=
  match elems with
  | [] => .ok ([], acc)
  | u :: rest =>
    match rewriteJVal u acc with
    | .error e => .error e
    | .ok (m, acc1) =>
      match rewriteElems rest acc1 with
      | .error e => .error e
      | .ok (ms, acc2) => .ok (SeqVal.obj m :: ms, acc2)

/-- The key loop of `rewrite` when the projector itself is an array:
`Object.keys` enumerates the element indices in ascending order, and
indexing returns the elements. -/
def rewriteIdx (i : Nat) (elems : List JVal) (acc : List SizeWhere) :
    Except String (List (SeqKey × SeqVal) × List SizeWhere) :=
  match elems with
  | [] => .ok ([], acc)
  | val :: rest =>
    match rewriteEntry (toString i) val acc with
    | .error e => .error e
    | .ok (e1, acc1) =>
      match rewriteIdx (i + 1) rest acc1 with
      | .error e => .error e
      | .ok (r, acc2) => .ok (e1 ++ r, acc2)

/-- `rewrite` of `src/sequelize.ts` on an arbitrary JavaScript value:
`Object.keys` of a plain object enumerates its entries, of an array its
indices, of a primitive string its character indices, and of a number or
boolean nothing at all, so numbers and booleans rewrite to the empty
mapping. -/
def rewriteJVal (projector : JVal) (acc : List SizeWhere) :
    Except String (List (SeqKey × SeqVal) × List SizeWhere) :=
  match projector with
  | .obj kvs => rewriteList kvs acc
  | .arr xs => rewriteIdx 0 xs acc
  | .str s => .ok (strCharEntries s, acc)
  | .num _ => .ok ([], acc)
  | .bool _ => .ok ([], acc)

end

/-- One element of the `where` sequence returned in the special-case branch
of `toSequelize`: either a standalone array-length predicate or the
ordinary rewritten mapping pushed at the end. -/
inductive WhereItem where
  | sizePred (w : SizeWhere)
  | mapping (entries : List (SeqKey × SeqVal))
  deriving Repr

/-- The descriptor returned by `toSequelize`: the empty object, a `where`
holding the single rewritten mapping, or a `where` holding the sequence of
special cases (with the mapping possibly appended last). -/
inductive SequelizeResult where
  | empty
  | whereMapping (entries : List (SeqKey × SeqVal))
  | whereSeq (items : List WhereItem)
  deriving Repr

/-- Whether the rewritten mapping has an own enumerable string key — this is
what `_.keys(p).length` counts; Sequelize operator symbols are invisible
to it. -/
def hasStringKey (p : List (SeqKey × SeqVal)) : Bool :=
  p.any (fun e => e.1.isStr)

/-- `toSequelize` of `src/sequelize.ts`: rewrites the projector and
assembles the descriptor. Without special cases, the result is `{}` when
the mapping `p` has neither string keys (`_.keys`) nor symbol keys
(`Object.getOwnPropertySymbols`), i.e. is the empty mapping, and
`{ where: p }` otherwise. With special cases, the source tests only
`_.keys(p).length === 0`: `p` is pushed after the special cases exactly
when it has an own string key. -/
def toSequelize (projector : JVal) : Except String SequelizeResult :=
  match rewriteJVal projector [] with
  | .error e => .error e
  | .ok (p, specialCases) =>
    if specialCases.isEmpty then
      if p.isEmpty then .ok .empty else .ok (.whereMapping p)
    else
      if hasStringKey p then
        .ok (.whereSeq (specialCases.map WhereItem.sizePred ++ [WhereItem.mapping p]))
      else
        .ok (.whereSeq (specialCases.map WhereItem.sizePred))

/-- A JavaScript value whose own-key enumeration (`Object.keys`) is empty:
numbers, booleans and the empty string. A non-empty string has its
character indices as own keys. -/
def noOwnKeys : JVal → Bool
  | .num _ => true
  | .bool _ => true
  | .str s => s = ""
  | _ => false

theorem truthy_some {s : String} (h : s ≠ "") : truthy (some s) = true := by
  simp [truthy, h]

theorem toSQL_leaf (op fld : String) (od : Option JVal) (v : String) (lvl : Nat)
    (hop : op ≠ "") (hf : fld ≠ "") :
    toSQL (QNode.mk (some op) (some fld) od (some [])) v lvl
      = renderPredicate op fld od v := by
  rw [toSQL]
  simp only [truthy_some hop, truthy_some hf, Option.getD_some, if_true]
  cases renderPredicate op fld od v <;> simp

/-- C2: for every predicate node with a (truthy) field and a scalar operand,
the string renderer produces for `$size` the form
`(length(<variable>.<field>) = <operand>)` — and not the plain comparison
form `(<variable>.<field> = <operand>)` — for `$startsWith` the form
`(<variable>.<field> like '<operand>%')`, for `$contains` the form
`(<variable>.<field> like '%<operand>%')`, and for `$regex` the form
`(<variable>.<field> regexp '<operand>')`. -/
theorem toSQL_special_string_forms (v fld : String) (od : JVal)
    (hf : fld ≠ "") (hs : od.isScalar = true) :
    toSQL (QNode.mk (some "$size") (some fld) (some od) (some [])) v 0
      = .ok ("(length(" ++ v ++ "." ++ fld ++ ") = " ++ getOperandS (some od) ++ ")") ∧
    toSQL (QNode.mk (some "$size") (some fld) (some od) (some [])) v 0
      ≠ .ok ("(" ++ v ++ "." ++ fld ++ " = " ++ getOperandS (some od) ++ ")") ∧
    toSQL (QNode.mk (some "$startsWith") (some fld) (some od) (some [])) v 0
      = .ok ("(" ++ v ++ "." ++ fld ++ " like " ++ apos ++ jsStr od ++ "%" ++ apos ++ ")") ∧
    toSQL (QNode.mk (some "$contains") (some fld) (some od) (some [])) v 0
      = .ok ("(" ++ v ++ "." ++ fld ++ " like " ++ apos ++ "%" ++ jsStr od ++ "%" ++ apos ++ ")") ∧
    toSQL (QNode.mk (some "$regex") (some fld) (some od) (some [])) v 0
      = .ok ("(" ++ v ++ "." ++ fld ++ " regexp " ++ apos ++ jsStr od ++ apos ++ ")") := by
  have hsize : toSQL (QNode.mk (some "$size") (some fld) (some od) (some [])) v 0
      = .ok ("(length(" ++ v ++ "." ++ fld ++ ") = " ++ getOperandS (some od) ++ ")") := by
    rw [toSQL_leaf _ _ _ _ _ (by decide) hf]
    cases od <;> simp_all [renderPredicate, JVal.isScalar, getOperandS]
  refine ⟨hsize, ?_, ?_, ?_, ?_⟩
  · rw [hsize]
    intro h
    rw [Except.ok.injEq] at h
    have hl := congrArg String.length h
    simp only [String.length_append] at hl
    have e1 : ("(length(" : String).length = 8 := rfl
    have e2 : ("." : String).length = 1 := rfl
    have e3 : (") = " : String).length = 4 := rfl
    have e4 : (")" : String).length = 1 := rfl
    have e5 : ("(" : String).length = 1 := rfl
    have e6 : (" = " : String).length = 3 := rfl
    rw [e1, e2, e3, e4, e5, e6] at hl
    omega
  · rw [toSQL_leaf _ _ _ _ _ (by decide) hf]
    cases od <;> simp_all [renderPredicate, JVal.isScalar, jsStrOpt]
  · rw [toSQL_leaf _ _ _ _ _ (by decide) hf]
    cases od <;> simp_all [renderPredicate, JVal.isScalar, jsStrOpt]
  · rw [toSQL_leaf _ _ _ _ _ (by decide) hf]
    cases od <;> simp_all [renderPredicate, JVal.isScalar, jsStrOpt]

/-- Witness for C2 at variable `u`, field `v`, operand `13` (and string
operands for the like/regexp forms). -/
theorem toSQL_special_string_forms_witness :
    ("v" : String) ≠ "" ∧ (JVal.num 13).isScalar = true ∧
    toSQL (QNode.mk (some "$size") (some "v") (some (.num 13)) (some [])) "u" 0
      = .ok "(length(u.v) = 13)" ∧
    toSQL (QNode.mk (some "$startsWith") (some "s") (some (.str "f")) (some [])) "w" 0
      = .ok ("(w.s like " ++ apos ++ "f%" ++ apos ++ ")") ∧
    toSQL (QNode.mk (some "$contains") (some "s") (some (.str "aa")) (some [])) "w" 0
      = .ok ("(w.s like " ++ apos ++ "%aa%" ++ apos ++ ")") :=
  ⟨by decide, by decide,
   (toSQL_special_string_forms "u" "v" (.num 13) (by decide) (by decide)).1,
   (toSQL_special_string_forms "w" "s" (.str "f") (by decide) (by decide)).2.2.1,
   (toSQL_special_string_forms "w" "s" (.str "aa") (by decide) (by decide)).2.2.2.1⟩

/-- String concatenation is associative (proved via the underlying
character lists). -/
theorem strAppend_assoc (a b c : String) : a ++ b ++ c = a ++ (b ++ c) := by
  apply String.ext
  simp [String.data_append]

/-- Folding three adjacent concatenation pieces in the middle of a
template-literal rendering. -/
theorem append_fold3 (a x y z b w : String) (h : x ++ y ++ z = w) :
    a ++ x ++ y ++ z ++ b = a ++ w ++ b := by
  rw [strAppend_assoc a x y, strAppend_assoc a (x ++ y) z, h]

/-- `renderPredicate` on a scalar operand and an operator with a symbol in
the fixed table, outside the four special-cased keywords: the fallthrough
comparison form. -/
theorem renderPredicate_default (op sym fld : String) (od : JVal) (v : String)
    (hsym : getSqlOperator op = .ok sym) (hs : od.isScalar = true)
    (h1 : op ≠ "$size") (h2 : op ≠ "$startsWith") (h3 : op ≠ "$contains") (h4 : op ≠ "$regex") :
    renderPredicate op fld (some od) v
      = .ok ("(" ++ v ++ "." ++ fld ++ " " ++ sym ++ " " ++ getOperandS (some od) ++ ")") := by
  cases od <;> simp_all [renderPredicate, getOperandS, JVal.isScalar]

/-- C4: for every predicate node with a (truthy) field, an operator among
`$eq`, `$lt`, `$lte`, `$gt`, `$gte` and a scalar operand, the renderer
produces `(<variable>.<field> <symbol> <operand>)` with the respective
symbols `=`, `<`, `<=`, `>`, `>=`; the operand is rendered single-quoted
when a string and as a bare literal when a number or boolean; e.g.
`{x: {$lt: 12}}` renders as `(n.x < 12)` and `{x: {$gte: 12}}` as
`(n.x >= 12)`. -/
theorem toSQL_comparison_forms (v fld : String) (od : JVal)
    (hf : fld ≠ "") (hs : od.isScalar = true) :
    toSQL (QNode.mk (some "$eq") (some fld) (some od) (some [])) v 0
      = .ok ("(" ++ v ++ "." ++ fld ++ " = " ++ getOperandS (some od) ++ ")") ∧
    toSQL (QNode.mk (some "$lt") (some fld) (some od) (some [])) v 0
      = .ok ("(" ++ v ++ "." ++ fld ++ " < " ++ getOperandS (some od) ++ ")") ∧
    toSQL (QNode.mk (some "$lte") (some fld) (some od) (some [])) v 0
      = .ok ("(" ++ v ++ "." ++ fld ++ " <= " ++ getOperandS (some od) ++ ")") ∧
    toSQL (QNode.mk (some "$gt") (some fld) (some od) (some [])) v 0
      = .ok ("(" ++ v ++ "." ++ fld ++ " > " ++ getOperandS (some od) ++ ")") ∧
    toSQL (QNode.mk (some "$gte") (some fld) (some od) (some [])) v 0
      = .ok ("(" ++ v ++ "." ++ fld ++ " >= " ++ getOperandS (some od) ++ ")") ∧
    (∀ s : String, getOperandS (some (.str s)) = apos ++ s ++ apos) ∧
    (∀ n : Int, getOperandS (some (.num n)) = toString n) ∧
    (∀ b : Bool, getOperandS (some (.bool b)) = toString b) ∧
    toSQL (QNode.mk none none none
        (some [QNode.mk (some "$lt") (some "x") (some (.num 12)) (some [])])) "n" 0
      = .ok "(n.x < 12)" ∧
    toSQL (QNode.mk none none none
        (some [QNode.mk (some "$gte") (some "x") (some (.num 12)) (some [])])) "n" 0
      = .ok "(n.x >= 12)" := by
  refine ⟨?_, ?_, ?_, ?_, ?_,
          fun s => by simp [getOperandS, getOperand],
          fun n => by simp [getOperandS, getOperand],
          fun b => by simp [getOperandS, getOperand], rfl, rfl⟩
  · rw [toSQL_leaf _ _ _ _ _ (by decide) hf,
        renderPredicate_default "$eq" "=" fld od v rfl hs (by decide) (by decide) (by decide) (by decide),
        append_fold3 _ " " "=" " " _ " = " rfl]
  · rw [toSQL_leaf _ _ _ _ _ (by decide) hf,
        renderPredicate_default "$lt" "<" fld od v rfl hs (by decide) (by decide) (by decide) (by decide),
        append_fold3 _ " " "<" " " _ " < " rfl]
  · rw [toSQL_leaf _ _ _ _ _ (by decide) hf,
        renderPredicate_default "$lte" "<=" fld od v rfl hs (by decide) (by decide) (by decide) (by decide),
        append_fold3 _ " " "<=" " " _ " <= " rfl]
  · rw [toSQL_leaf _ _ _ _ _ (by decide) hf,
        renderPredicate_default "$gt" ">" fld od v rfl hs (by decide) (by decide) (by decide) (by decide),
        append_fold3 _ " " ">" " " _ " > " rfl]
  · rw [toSQL_leaf _ _ _ _ _ (by decide) hf,
        renderPredicate_default "$gte" ">=" fld od v rfl hs (by decide) (by decide) (by decide) (by decide),
        append_fold3 _ " " ">=" " " _ " >= " rfl]

/-- Witness for C4 at variable `n`, field `x`, operand `12`. -/
theorem toSQL_comparison_forms_witness :
    ("x" : String) ≠ "" ∧ (JVal.num 12).isScalar = true ∧
    toSQL (QNode.mk (some "$lt") (some "x") (some (.num 12)) (some [])) "n" 0
      = .ok "(n.x < 12)" ∧
    toSQL (QNode.mk (some "$gte") (some "x") (some (.num 12)) (some [])) "n" 0
      = .ok "(n.x >= 12)" :=
  ⟨by decide, by decide,
   (toSQL_comparison_forms "n" "x" (.num 12) (by decide) (by decide)).2.1,
   (toSQL_comparison_forms "n" "x" (.num 12) (by decide) (by decide)).2.2.2.2.1⟩

/-- C5: for every predicate node with a (truthy) field and an array operand,
`$all` renders `(<renderedOperand> in <variable>.<field>)` — containment
direction reversed versus normal comparisons — and `$in` renders
`(<variable>.<field> in (<renderedOperand>))`, where the operand array is
formatted element by element (strings single-quoted, numbers bare, the
empty array as `[]`) and comma-joined; e.g. `{labels: {$all: ['A']}}`
renders as `('A' in n.labels)` and `{x: {$in: ['a','b']}}` as
`(n.x in ('a', 'b'))`. -/
theorem toSQL_array_forms (v fld : String) (xs : List JVal) (hf : fld ≠ "") :
    toSQL (QNode.mk (some "$all") (some fld) (some (.arr xs)) (some [])) v 0
      = .ok ("(" ++ getOperandS (some (.arr xs)) ++ " in " ++ v ++ "." ++ fld ++ ")") ∧
    toSQL (QNode.mk (some "$in") (some fld) (some (.arr xs)) (some [])) v 0
      = .ok ("(" ++ v ++ "." ++ fld ++ " in (" ++ getOperandS (some (.arr xs)) ++ "))") ∧
    getOperand (JVal.arr []) = some "[]" ∧
    (∀ y ys, getOperand (JVal.arr (y :: ys))
      = some (String.intercalate ", " (getOperandList (y :: ys)))) ∧
    (∀ s : String, getOperand (JVal.str s) = some (apos ++ s ++ apos)) ∧
    (∀ n : Int, getOperand (JVal.num n) = some (toString n)) ∧
    toSQL (QNode.mk none none none
        (some [QNode.mk (some "$all") (some "labels") (some (.arr [.str "A"])) (some [])])) "n" 0
      = .ok ("(" ++ apos ++ "A" ++ apos ++ " in n.labels)") ∧
    toSQL (QNode.mk none none none
        (some [QNode.mk (some "$in") (some "x") (some (.arr [.str "a", .str "b"])) (some [])])) "n" 0
      = .ok ("(n.x in (" ++ apos ++ "a" ++ apos ++ ", " ++ apos ++ "b" ++ apos ++ "))") := by
  refine ⟨?_, ?_, rfl, fun y ys => rfl, fun s => rfl, fun n => rfl, rfl, rfl⟩
  · rw [toSQL_leaf _ _ _ _ _ (by decide) hf]
    simp [renderPredicate]
  · rw [toSQL_leaf _ _ _ _ _ (by decide) hf]
    simp only [renderPredicate]
    rw [if_neg (show ¬("$in" : String) = "$all" by decide),
        show getSqlOperator "$in" = Except.ok "in" from rfl]
    exact congrArg (fun t => Except.ok (t ++ "))"))
      (append_fold3 ("(" ++ v ++ "." ++ fld) " " "in" " ("
        (getOperandS (some (JVal.arr xs))) " in (" rfl)

/-- Witness for C5 at variable `n`, field `x`, operand `['a','b']`. -/
theorem toSQL_array_forms_witness :
    ("x" : String) ≠ "" ∧
    toSQL (QNode.mk (some "$in") (some "x") (some (.arr [.str "a", .str "b"])) (some [])) "n" 0
      = .ok ("(n.x in (" ++ apos ++ "a" ++ apos ++ ", " ++ apos ++ "b" ++ apos ++ "))") ∧
    toSQL (QNode.mk (some "$all") (some "labels") (some (.arr [.str "A"])) (some [])) "n" 0
      = .ok ("(" ++ apos ++ "A" ++ apos ++ " in n.labels)") :=
  ⟨by decide,
   (toSQL_array_forms "n" "x" [.str "a", .str "b"] (by decide)).2.1,
   (toSQL_array_forms "n" "labels" [.str "A"] (by decide)).1⟩

theorem renderParts_eq_mapM (ps : List QNode) (v : String) :
    renderParts ps v = ps.mapM (fun p => toSQL p v 0) := by
  induction ps with
  | nil => rfl
  | cons p rest ih =>
    rw [renderParts, ih, List.mapM_cons]
    cases h1 : toSQL p v 0 <;>
      cases h2 : rest.mapM (fun p => toSQL p v 0) <;>
        simp only [h1, h2] <;> rfl

theorem strJoin_cons (s : String) (r : List String) :
    String.join (s :: r) = s ++ String.join r := by
  apply String.ext
  simp [String.join_eq, String.data_append]

theorem renderTrailing_eq_mapM (ps : List QNode) (v : String) (lvl : Nat) :
    renderTrailing ps v lvl
      = Except.map (fun l => String.join l) (ps.mapM (fun p => toSQL p v (lvl + 1))) := by
  induction ps with
  | nil => rfl
  | cons p rest ih =>
    rw [renderTrailing, ih, List.mapM_cons]
    cases h1 : toSQL p v (lvl + 1) <;>
      cases h2 : rest.mapM (fun p => toSQL p v (lvl + 1)) <;>
        simp only [h1, h2] <;>
          first
          | rfl
          | (exact congrArg Except.ok (strJoin_cons _ _).symm)

/-- C6: a container node (field absent) with operator `$and` or `$or`
renders all children recursively (same variable, level 0) and joins them
with " and " / " or " respectively, returning immediately — the children
are rendered exactly once, as the single `mapM` pass shows; a container
with no operator concatenates the children's renderings (at `level + 1`)
with no separator. -/
theorem toSQL_container_join (ps : List QNode) (v : String) (lvl : Nat)
    (od : Option JVal) (fld : Option String) :
    toSQL (QNode.mk (some "$and") none od (some ps)) v lvl
      = Except.map (fun coll => String.intercalate " and " coll)
          (ps.mapM (fun p => toSQL p v 0)) ∧
    toSQL (QNode.mk (some "$or") none od (some ps)) v lvl
      = Except.map (fun coll => String.intercalate " or " coll)
          (ps.mapM (fun p => toSQL p v 0)) ∧
    toSQL (QNode.mk none fld od (some ps)) v lvl
      = Except.map (fun l => String.join l) (ps.mapM (fun p => toSQL p v (lvl + 1))) := by
  refine ⟨?_, ?_, ?_⟩
  · rw [toSQL, renderParts_eq_mapM]
    cases h : ps.mapM (fun p => toSQL p v 0) <;> simp [h, Except.map, truthy, getSqlOperator]
  · rw [toSQL, renderParts_eq_mapM]
    cases h : ps.mapM (fun p => toSQL p v 0) <;> simp [h, Except.map, truthy, getSqlOperator]
  · rw [toSQL]
    rw [← renderTrailing_eq_mapM]
    cases hps : ps with
    | nil => simp [truthy, renderTrailing]
    | cons p rest =>
      simp only [truthy]
      cases h : renderTrailing (p :: rest) v lvl <;> simp [h]

theorem getSqlOperator_unknown (op : String)
    (h1 : op ≠ "$eq") (h2 : op ≠ "$lt") (h3 : op ≠ "$lte") (h4 : op ≠ "$gt")
    (h5 : op ≠ "$gte") (h6 : op ≠ "$in") (h7 : op ≠ "$and") (h8 : op ≠ "$or") :
    getSqlOperator op = .error (.unrecognizedOperator op) := by
  simp [getSqlOperator, h1, h2, h3, h4, h5, h6, h7, h8]

/-- C8: a predicate node whose operator keyword is outside the renderer's
fixed symbol table (and not one of the special-cased keywords `$all`,
`$size`, `$startsWith`, `$contains`, `$regex`) makes `toSQL` fail with the
unrecognized-operator error carrying the offending keyword — whose message
names that keyword — and no rendered string is produced. -/
theorem toSQL_unknown_operator (op fld : String) (od : Option JVal)
    (pts : Option (List QNode)) (v : String) (lvl : Nat)
    (hop : op ∉ ["$eq", "$lt", "$lte", "$gt", "$gte", "$in", "$and", "$or",
                 "$all", "$size", "$startsWith", "$contains", "$regex"])
    (hne : op ≠ "") (hf : fld ≠ "") :
    toSQL (QNode.mk (some op) (some fld) od pts) v lvl
      = .error (.unrecognizedOperator op) ∧
    (∃ pre post, RenderError.message (.unrecognizedOperator op) = pre ++ op ++ post) := by
  simp only [List.mem_cons, not_or, List.not_mem_nil, or_false] at hop
  obtain ⟨h1, h2, h3, h4, h5, h6, h7, h8, h9, h10, h11, h12, h13⟩ := hop
  constructor
  · have hs := getSqlOperator_unknown op h1 h2 h3 h4 h5 h6 h7 h8
    have hrp : renderPredicate op fld od v = .error (.unrecognizedOperator op) := by
      rcases od with _ | val
      · simp [renderPredicate, h10, h11, h12, h13, hs]
      · cases val <;> simp [renderPredicate, h9, h10, h11, h12, h13, hs]
    rcases pts with _ | ps <;>
      · rw [toSQL]
        simp [truthy_some hne, truthy_some hf, hrp]
  · refine ⟨"Unrecognized operator " ++ apos, apos ++ ".", ?_⟩
    rw [RenderError.message]
    exact strAppend_assoc _ apos "."

/-- Witness for C8 at the typo keyword `$eqq`. -/
theorem toSQL_unknown_operator_witness :
    ("$eqq" : String) ∉ ["$eq", "$lt", "$lte", "$gt", "$gte", "$in", "$and", "$or",
                         "$all", "$size", "$startsWith", "$contains", "$regex"] ∧
    toSQL (QNode.mk (some "$eqq") (some "x") (some (.num 1)) (some [])) "n" 0
      = .error (.unrecognizedOperator "$eqq") :=
  ⟨by decide,
   (toSQL_unknown_operator "$eqq" "x" (some (.num 1)) (some []) "n" 0
     (by decide) (by decide) (by decide)).1⟩

theorem renderPredicate_ok_of_mem (op fld : String) (od : JVal) (v : String)
    (hop : op ∈ ["$eq", "$lt", "$lte", "$gt", "$gte", "$in", "$and", "$or",
                 "$size", "$startsWith", "$contains", "$regex"])
    (hs : od.isScalar = true) :
    ∃ s0, renderPredicate op fld (some od) v = .ok s0 := by
  simp only [List.mem_cons, List.not_mem_nil, or_false] at hop
  rcases hop with rfl | rfl | rfl | rfl | rfl | rfl | rfl | rfl | rfl | rfl | rfl | rfl <;>
    cases od with
    | str s => exact ⟨_, rfl⟩
    | num n => exact ⟨_, rfl⟩
    | bool b => exact ⟨_, rfl⟩
    | arr l => simp [JVal.isScalar] at hs
    | obj l => simp [JVal.isScalar] at hs

/-- C10: after any non-connector branch, `toSQL` unconditionally evaluates
`q.parts.length`; a predicate node (truthy field, scalar operand, operator
among the twelve renderable keywords, or `$all` with an array operand)
whose `parts` field is absent therefore fails with a `TypeError` instead
of returning the rendered predicate string — which it does return when
`parts` is present and empty. -/
theorem toSQL_missing_parts (op fld : String) (od : JVal) (v : String) (lvl : Nat)
    (hop : op ∈ ["$eq", "$lt", "$lte", "$gt", "$gte", "$in", "$and", "$or",
                 "$size", "$startsWith", "$contains", "$regex"])
    (hf : fld ≠ "") (hs : od.isScalar = true) :
    toSQL (QNode.mk (some op) (some fld) (some od) none) v lvl
      = .error (.typeError partsLengthMsg) ∧
    (∀ xs : List JVal,
      toSQL (QNode.mk (some "$all") (some fld) (some (.arr xs)) none) v lvl
        = .error (.typeError partsLengthMsg)) ∧
    (∃ s, toSQL (QNode.mk (some op) (some fld) (some od) (some [])) v lvl = .ok s) := by
  obtain ⟨s0, hs0⟩ := renderPredicate_ok_of_mem op fld od v hop hs
  have hne : op ≠ "" := fun h => by subst h; revert hop; decide
  refine ⟨?_, ?_, ?_⟩
  · rw [toSQL]
    simp [truthy_some hne, truthy_some hf, hs0]
  · intro xs
    rw [toSQL]
    simp [truthy, hf, renderPredicate]
  · exact ⟨s0, by rw [toSQL_leaf op fld (some od) v lvl hne hf]; exact hs0⟩

/-- Witness for C10 at operator `$eq`, field `x`, operand `7`. -/
theorem toSQL_missing_parts_witness :
    ("$eq" : String) ∈ ["$eq", "$lt", "$lte", "$gt", "$gte", "$in", "$and", "$or",
                        "$size", "$startsWith", "$contains", "$regex"] ∧
    toSQL (QNode.mk (some "$eq") (some "x") (some (.num 7)) none) "n" 0
      = .error (.typeError partsLengthMsg) :=
  ⟨by decide,
   (toSQL_missing_parts "$eq" "x" (.num 7) "n" 0 (by decide) (by decide) (by decide)).1⟩

theorem getSequelizeOperator_default (k : String)
    (h1 : k ≠ "$eq") (h2 : k ≠ "$lt") (h3 : k ≠ "$lte") (h4 : k ≠ "$gt")
    (h5 : k ≠ "$gte") (h6 : k ≠ "$in") (h7 : k ≠ "$and") (h8 : k ≠ "$or")
    (h9 : k ≠ "$startsWith") (h10 : k ≠ "$contains") (h11 : k ≠ "$size")
    (hid : k ≠ "id") (hlab : k ≠ "labels") :
    getSequelizeOperator k = .ok (.str ("data." ++ k)) := by
  simp [getSequelizeOperator, h1, h2, h3, h4, h5, h6, h7, h8, h9, h10, h11, hid, hlab]

/-- C3 (counterexample): `$all` and `$regex` have no case in the
translator's keyword switch; both fall to the default branch and are
rewritten to attribute names under the schemaless `data.` namespace,
contradicting the claim that every one of the thirteen reserved keywords
is recognized as reserved. -/
theorem reserved_keywords_counterexample :
    getSequelizeOperator "$all" = .ok (.str ("data." ++ "$all")) ∧
    getSequelizeOperator "$regex" = .ok (.str ("data." ++ "$regex")) ∧
    toSequelize (.obj [("a", .obj [("$all", .arr [.str "A"])])])
      = .ok (.whereMapping [(.str "data.a",
          .obj [(.str "data.$all", .arr [.obj [(.str "data.0", .str "A")]])])]) :=
  ⟨rfl, rfl, rfl⟩

/-- C3 (amended): of the thirteen reserved filter keywords, eleven are
recognized by the translator's keyword switch — the first ten map to
Sequelize operator symbols and `$size` throws (it must have been
special-cased earlier) — while `$all` and `$regex` are NOT recognized and
are rewritten to the data-namespace attribute names `data.$all` and
`data.$regex`; `id` and `labels` pass through as literal keys. -/
theorem reserved_keywords_amended :
    getSequelizeOperator "$eq" = .ok (.op .opEq) ∧
    getSequelizeOperator "$lt" = .ok (.op .opLt) ∧
    getSequelizeOperator "$lte" = .ok (.op .opLte) ∧
    getSequelizeOperator "$gt" = .ok (.op .opGt) ∧
    getSequelizeOperator "$gte" = .ok (.op .opGte) ∧
    getSequelizeOperator "$in" = .ok (.op .opIn) ∧
    getSequelizeOperator "$and" = .ok (.op .opAnd) ∧
    getSequelizeOperator "$or" = .ok (.op .opOr) ∧
    getSequelizeOperator "$startsWith" = .ok (.op .opStartsWith) ∧
    getSequelizeOperator "$contains" = .ok (.op .opSubstring) ∧
    getSequelizeOperator "$size" = .error "Should have been handled separately already." ∧
    getSequelizeOperator "$all" = .ok (.str "data.$all") ∧
    getSequelizeOperator "$regex" = .ok (.str "data.$regex") ∧
    getSequelizeOperator "id" = .ok (.str "id") ∧
    getSequelizeOperator "labels" = .ok (.str "labels") :=
  ⟨rfl, rfl, rfl, rfl, rfl, rfl, rfl, rfl, rfl, rfl, rfl, rfl, rfl, rfl, rfl⟩

/-- C7: the translator passes the keys `id` and `labels` through as literal
keys and rewrites every other key that is not a recognized keyword —
including operator-like typos such as `$eqq` — to `data.<k>` without
throwing; e.g. `translate({id: 3})` is `{where: {id: 3}}`,
`translate({labels: 'c,v'})` is `{where: {labels: 'c,v'}}` and
`translate({a: 3})` is `{where: {'data.a': 3}}`. -/
theorem translator_key_rewrite (k : String) (n : Int)
    (hk : k ∉ ["$eq", "$lt", "$lte", "$gt", "$gte", "$in", "$and", "$or",
               "$startsWith", "$contains", "$size"])
    (hid : k ≠ "id") (hlab : k ≠ "labels") :
    getSequelizeOperator "id" = .ok (.str "id") ∧
    getSequelizeOperator "labels" = .ok (.str "labels") ∧
    getSequelizeOperator k = .ok (.str ("data." ++ k)) ∧
    toSequelize (.obj [(k, .num n)]) = .ok (.whereMapping [(.str ("data." ++ k), .num n)]) ∧
    toSequelize (.obj [("id", .num 3)]) = .ok (.whereMapping [(.str "id", .num 3)]) ∧
    toSequelize (.obj [("labels", .str "c,v")])
      = .ok (.whereMapping [(.str "labels", .str "c,v")]) ∧
    toSequelize (.obj [("a", .num 3)]) = .ok (.whereMapping [(.str "data.a", .num 3)]) := by
  simp only [List.mem_cons, not_or, List.not_mem_nil, or_false] at hk
  obtain ⟨h1, h2, h3, h4, h5, h6, h7, h8, h9, h10, h11⟩ := hk
  have hgso := getSequelizeOperator_default k h1 h2 h3 h4 h5 h6 h7 h8 h9 h10 h11 hid hlab
  refine ⟨rfl, rfl, hgso, ?_, rfl, rfl, rfl⟩
  simp [toSequelize, rewriteJVal, rewriteList, rewriteEntry, hgso]

/-- Witness for C7 at the typo key `$eqq` and value 4. -/
theorem translator_key_rewrite_witness :
    ("$eqq" : String) ∉ ["$eq", "$lt", "$lte", "$gt", "$gte", "$in", "$and", "$or",
                         "$startsWith", "$contains", "$size"] ∧
    toSequelize (.obj [("$eqq", .num 4)])
      = .ok (.whereMapping [(.str "data.$eqq", .num 4)]) :=
  ⟨by decide,
   (translator_key_rewrite "$eqq" 4 (by decide) (by decide) (by decide)).2.2.2.1⟩

/-- C1 (counterexample): with the filter
`{a: {$size: 2}, $gt: 5}`, rewriting yields the non-empty mapping
`P = {[Op.gt]: 5}` (one symbol-keyed entry) together with one standalone
predicate, yet `toSequelize` returns the `where` sequence WITHOUT `P` as
its last element: the second assembly branch tests only `_.keys(p)`, which
does not see symbol keys, so the non-empty `P` is dropped, contradicting
the claim that a non-empty `P` is always appended as the last element. -/
theorem toSequelize_assembly_counterexample :
    rewriteJVal (.obj [("a", .obj [("$size", .num 2)]), ("$gt", .num 5)]) []
      = .ok ([(SeqKey.op .opGt, SeqVal.num 5)], [sizeWhereFor "a" (.num 2)]) ∧
    ([(SeqKey.op .opGt, SeqVal.num 5)] : List (SeqKey × SeqVal)) ≠ [] ∧
    toSequelize (.obj [("a", .obj [("$size", .num 2)]), ("$gt", .num 5)])
      = .ok (.whereSeq [.sizePred (sizeWhereFor "a" (.num 2))]) ∧
    toSequelize (.obj [("a", .obj [("$size", .num 2)]), ("$gt", .num 5)])
      ≠ .ok (.whereSeq [.sizePred (sizeWhereFor "a" (.num 2)),
                        .mapping [(SeqKey.op .opGt, SeqVal.num 5)]]) := by
  refine ⟨rfl, by simp, rfl, ?_⟩
  intro h
  rw [show toSequelize (.obj [("a", .obj [("$size", .num 2)]), ("$gt", .num 5)])
        = .ok (.whereSeq [.sizePred (sizeWhereFor "a" (.num 2))]) from rfl] at h
  simp at h

/-- C1 (amended): with no standalone predicates collected, `toSequelize`
returns `{}` when the rewritten mapping `P` has no own keys and
`{where: P}` otherwise; with standalone predicates `S`, it returns
`{where: S}`, appending `P` as the LAST element exactly when `P` has at
least one own enumerable STRING key (a non-empty `P` consisting solely of
symbol-keyed entries is dropped); `translate({})` is `{}` and
`translate({a: {$size: 4}, b: 3})` yields a where sequence of length 2
whose second element is `{'data.b': 3}` and whose first element is the
standalone length predicate. -/
theorem toSequelize_assembly (projector : JVal) (p : List (SeqKey × SeqVal))
    (s : List SizeWhere) (h : rewriteJVal projector [] = .ok (p, s)) :
    (s = [] → p = [] → toSequelize projector = .ok .empty) ∧
    (s = [] → p ≠ [] → toSequelize projector = .ok (.whereMapping p)) ∧
    (s ≠ [] → hasStringKey p = false →
      toSequelize projector = .ok (.whereSeq (s.map WhereItem.sizePred))) ∧
    (s ≠ [] → hasStringKey p = true →
      toSequelize projector
        = .ok (.whereSeq (s.map WhereItem.sizePred ++ [WhereItem.mapping p]))) ∧
    toSequelize (.obj []) = .ok .empty ∧
    toSequelize (.obj [("a", .obj [("$size", .num 4)]), ("b", .num 3)])
      = .ok (.whereSeq [.sizePred (sizeWhereFor "a" (.num 4)),
                        .mapping [(.str "data.b", .num 3)]]) := by
  refine ⟨?_, ?_, ?_, ?_, rfl, rfl⟩
  · intro hs hp
    subst hs hp
    simp [toSequelize, h]
  · intro hs hp
    subst hs
    simp [toSequelize, h, hp]
  · intro hs hkeys
    simp [toSequelize, h, hs, hkeys]
  · intro hs hkeys
    simp [toSequelize, h, hs, hkeys]

/-- Witness for C1 (amended) at the filter `{a: {$size: 4}, b: 3}`, whose
rewrite yields one string-keyed mapping entry and one standalone
predicate, so the mapping is appended last. -/
theorem toSequelize_assembly_witness :
    rewriteJVal (.obj [("a", .obj [("$size", .num 4)]), ("b", .num 3)]) []
      = .ok ([(.str "data.b", .num 3)], [sizeWhereFor "a" (.num 4)]) ∧
    ([sizeWhereFor "a" (.num 4)] : List SizeWhere) ≠ [] ∧
    hasStringKey [(.str "data.b", .num 3)] = true ∧
    toSequelize (.obj [("a", .obj [("$size", .num 4)]), ("b", .num 3)])
      = .ok (.whereSeq [.sizePred (sizeWhereFor "a" (.num 4)),
                        .mapping [(.str "data.b", .num 3)]]) :=
  ⟨rfl, by simp, rfl,
   (toSequelize_assembly (.obj [("a", .obj [("$size", .num 4)]), ("b", .num 3)])
      [(.str "data.b", .num 3)] [sizeWhereFor "a" (.num 4)] rfl).2.2.2.1
     (by simp) rfl⟩

theorem rewriteJVal_noOwnKeys (u : JVal) (acc : List SizeWhere)
    (h : noOwnKeys u = true) :
    rewriteJVal u acc = .ok ([], acc) := by
  cases u with
  | num n => rfl
  | bool b => rfl
  | str s =>
    have hs : s = "" := by simpa [noOwnKeys] using h
    subst hs; rfl
  | arr l => simp [noOwnKeys] at h
  | obj l => simp [noOwnKeys] at h

theorem rewriteElems_noOwnKeys (vs : List JVal) (acc : List SizeWhere)
    (h : ∀ u ∈ vs, noOwnKeys u = true) :
    rewriteElems vs acc = .ok (vs.map (fun _ => SeqVal.obj []), acc) := by
  induction vs with
  | nil => rfl
  | cons u rest ih =>
    rw [rewriteElems]
    simp [rewriteJVal_noOwnKeys u acc (h u (by simp)),
          ih (fun x hx => h x (by simp [hx]))]

/-- C9 (counterexample): `rewrite` applied to the non-object scalar string
"ab" does NOT yield the empty mapping — `Object.keys` of a string
enumerates its character indices — so `{f: {$in: ['ab']}}` translates with
the element replaced by a character-indexed mapping rather than `{}`. -/
theorem rewrite_in_array_counterexample :
    rewriteJVal (.str "ab") []
      = .ok ([(.str "data.0", .str "a"), (.str "data.1", .str "b")], []) ∧
    ([(SeqKey.str "data.0", SeqVal.str "a"), (.str "data.1", .str "b")]
        : List (SeqKey × SeqVal)) ≠ [] ∧
    toSequelize (.obj [("f", .obj [("$in", .arr [.str "ab"])])])
      = .ok (.whereMapping [(.str "data.f",
          .obj [(.op .opIn,
            .arr [.obj [(.str "data.0", .str "a"), (.str "data.1", .str "b")]])])]) ∧
    toSequelize (.obj [("f", .obj [("$in", .arr [.str "ab"])])])
      ≠ .ok (.whereMapping [(.str "data.f", .obj [(.op .opIn, .arr [.obj []])])]) := by
  refine ⟨rfl, by simp, rfl, ?_⟩
  intro h
  rw [show toSequelize (.obj [("f", .obj [("$in", .arr [.str "ab"])])])
        = .ok (.whereMapping [(.str "data.f",
            .obj [(.op .opIn,
              .arr [.obj [(.str "data.0", .str "a"), (.str "data.1", .str "b")]])])])
      from rfl] at h
  simp at h

/-- C9 (amended): the translator's rewrite is applied element-wise to array
values, and rewriting an element with no own keys (a number, a boolean or
the empty string) yields the empty mapping; hence for every filter
`{f: {$in: [v1, ..., vn]}}` with such elements, `toSequelize` returns
`{where: {'data.f': {[Op.in]: [{}, ..., {}]}}}` — the elements are
replaced by empty mappings rather than preserved. (A non-empty string
element instead yields a character-indexed mapping.) -/
theorem rewrite_in_array_amended (f : String) (vs : List JVal)
    (hf : f ∉ ["$eq", "$lt", "$lte", "$gt", "$gte", "$in", "$and", "$or",
               "$startsWith", "$contains", "$size"])
    (hid : f ≠ "id") (hlab : f ≠ "labels")
    (hvs : ∀ u ∈ vs, noOwnKeys u = true) :
    toSequelize (.obj [(f, .obj [("$in", .arr vs)])])
      = .ok (.whereMapping [(.str ("data." ++ f),
          .obj [(.op .opIn, .arr (vs.map (fun _ => SeqVal.obj [])))])]) := by
  simp only [List.mem_cons, not_or, List.not_mem_nil, or_false] at hf
  obtain ⟨h1, h2, h3, h4, h5, h6, h7, h8, h9, h10, h11⟩ := hf
  have hgso := getSequelizeOperator_default f h1 h2 h3 h4 h5 h6 h7 h8 h9 h10 h11 hid hlab
  have he := rewriteElems_noOwnKeys vs [] hvs
  simp [toSequelize, rewriteJVal, rewriteList, rewriteEntry, lookupSize,
        getSequelizeOperator, h1, h2, h3, h4, h5, h6, h7, h8, h9, h10, h11,
        hid, hlab, he, hasStringKey, SeqKey.isStr]

/-- Witness for C9 (amended) at the filter `{f: {$in: [1, 2]}}`. -/
theorem rewrite_in_array_amended_witness :
    ("f" : String) ∉ ["$eq", "$lt", "$lte", "$gt", "$gte", "$in", "$and", "$or",
                      "$startsWith", "$contains", "$size"] ∧
    (∀ u ∈ [JVal.num 1, JVal.num 2], noOwnKeys u = true) ∧
    toSequelize (.obj [("f", .obj [("$in", .arr [.num 1, .num 2])])])
      = .ok (.whereMapping [(.str "data.f",
          .obj [(.op .opIn, .arr [.obj [], .obj []])])]) :=
  ⟨by decide, by decide,
   rewrite_in_array_amended "f" [.num 1, .num 2]
     (by decide) (by decide) (by decide) (by decide)⟩
